import Mathlib

/-!
Verification of the natural-language-to-SQL agent repository.

The repository ships three files under version control here: the page
component (with `deriveChartState`, `formatCell` and the database
`bootstrap` effect), the root layout and the Next.js config.  The
translator `translateToSql` is imported from `@/lib/nlToSql`, and the
`orders` dataset from `@/lib/dataset`; neither library file is part of
the available sources, so the translator pipeline below is modelled
from the specification (each such definition says so in its doc
comment).  The page component itself is embedded directly from the
source.
-/

namespace NlSql

/-- Modelled from the spec: column identifiers of the single `orders`
table of the Schema Registry (§6 schema contract). -/
inductive Col where
  | id
  | customer
  | region
  | category
  | amount
  | quantity
  | order_date
  | order_month
  | order_year
deriving DecidableEq

/-- Modelled from the spec: SQL rendering of a column name. -/
def Col.sqlName : Col → String
  | .id => "id"
  | .customer => "customer"
  | .region => "region"
  | .category => "category"
  | .amount => "amount"
  | .quantity => "quantity"
  | .order_date => "order_date"
  | .order_month => "order_month"
  | .order_year => "order_year"

/-- Modelled from the spec: the aggregate modes (§3 Query Plan). -/
inductive Agg where
  | SUM
  | AVG
  | COUNT
  | LIST
deriving DecidableEq

/-- Modelled from the spec: filter operators (§3 Query Plan). -/
inductive FOp where
  | EQUALS
  | IN_MONTH
  | BETWEEN_MONTHS
deriving DecidableEq

/-- Modelled from the spec: one recognized filter.  An `eqF` filter
carries the owning column and the canonical-cased value; the month
filters act on the derived month column. -/
inductive Filter where
  | eqF (c : Col) (v : String)
  | inMonth (m : Nat)
  | betweenMonths (m1 m2 : Nat)
deriving DecidableEq

/-- The column a filter constrains (month filters act on `order_month`). -/
def Filter.column : Filter → Col
  | .eqF c _ => c
  | .inMonth _ => .order_month
  | .betweenMonths _ _ => .order_month

/-- The operator of a filter. -/
def Filter.fop : Filter → FOp
  | .eqF _ _ => .EQUALS
  | .inMonth _ => .IN_MONTH
  | .betweenMonths _ _ => .BETWEEN_MONTHS

/-- Whether the filter is an EQUALS filter on column `c`. -/
def Filter.isEqOn (f : Filter) (c : Col) : Bool :=
  match f with
  | .eqF c2 _ => c2 = c
  | _ => false

/-- Modelled from the spec: the ephemeral Query Plan (§3). -/
structure Plan where
  aggregate : Agg
  metricColumn : Option Col
  groupByColumn : Option Col
  filters : List Filter
  limit : Option Nat
  orderBy : Option String
  orderDirection : Option String
deriving DecidableEq

/-- Modelled from the spec: the Translation Result record (§3). -/
structure QueryState where
  sql : String
  explanation : String
deriving DecidableEq

/-! Schema Registry and Lexicon. -/

/-- Modelled from the spec: known region values in canonical casing
(Schema Registry; the value `South` is fixed by spec scenario 4). -/
def regionValues : List String := ["North", "South", "East", "West"]

/-- Modelled from the spec: known category values in canonical casing
(Schema Registry; `Grocery` and `Electronics` are fixed by spec
scenarios 4 and 5). -/
def categoryValues : List String := ["Electronics", "Grocery", "Clothing", "Furniture"]

/-- Modelled from the spec: month names of the Lexicon, in order. -/
def monthNames : List String :=
  ["january", "february", "march", "april", "may", "june",
   "july", "august", "september", "october", "november", "december"]

/-- Modelled from the spec: month-name lookup, mapping a token to a
month number 1–12. -/
def monthOf (t : String) : Option Nat :=
  (monthNames.zip (List.range 12)).findSome?
    (fun p => if p.1 = t then some (p.2 + 1) else none)

/-- Modelled from the spec: metric-noun lookup of the Lexicon
("sales"/"revenue"/"amount" → amount, "quantity"/"units" → quantity). -/
def metricNounOf (t : String) : Option Col :=
  if t = "sales" ∨ t = "revenue" ∨ t = "amount" then some Col.amount
  else if t = "quantity" ∨ t = "quantities" ∨ t = "units" then some Col.quantity
  else none

/-- Modelled from the spec: dimension-noun lookup of the Lexicon
(region/category/customer/month nouns map to grouping columns). -/
def dimNounOf (t : String) : Option Col :=
  if t = "region" ∨ t = "regions" ∨ t = "area" ∨ t = "areas" then some Col.region
  else if t = "category" ∨ t = "categories" then some Col.category
  else if t = "customer" ∨ t = "customers" then some Col.customer
  else if t = "month" ∨ t = "months" then some Col.order_month
  else none

/-! Normalizer (§4.1). -/

/-- Splits a character list into words at spaces, accumulating the
current word in reverse. -/
def splitWords : List Char → List Char → List String
  | [], acc => if acc = [] then [] else [String.mk acc.reverse]
  | c :: rest, acc =>
    if c = ' ' then
      if acc = [] then splitWords rest []
      else String.mk acc.reverse :: splitWords rest []
    else splitWords rest (c :: acc)

/-- Modelled from the spec: lowercase, strip punctuation (hyphens are
kept), collapse whitespace, split into word tokens.  Empty or
whitespace-only input yields the empty token sequence. -/
def normalize (s : String) : List String :=
  let cleaned : List Char := (s.data.map Char.toLower).filterMap (fun c =>
    if c.isWhitespace then some ' '
    else if c.isAlphanum ∨ c = '-' then some c
    else none)
  splitWords cleaned []

/-! Entity Recognizer (§4.2). -/

/-- Modelled from the spec: case-insensitive lookup of a token against
a closed value list; returns the canonical-cased value on a match. -/
def canonOf (values : List String) (t : String) : Option String :=
  values.find? (fun v => String.mk (v.data.map Char.toLower) = t)

/-- Modelled from the spec: the first (leftmost) token matching a value
of the given categorical column, returned in canonical casing. -/
def firstCatMatch (ts : List String) (values : List String) : Option String :=
  ts.findSome? (canonOf values)

/-- Index of the first token matching a value of the column. -/
def firstCatIdx (ts : List String) (values : List String) : Nat :=
  (ts.findIdx? (fun t => (canonOf values t).isSome)).getD 0

/-- Modelled from the spec: greedy left-to-right categorical matching.
The first match per categorical column wins; the resulting EQUALS
filters are listed in token order. -/
def catFilters (ts : List String) : List Filter :=
  match firstCatMatch ts regionValues, firstCatMatch ts categoryValues with
  | some v, some w =>
      if firstCatIdx ts regionValues ≤ firstCatIdx ts categoryValues then
        [Filter.eqF Col.region v, Filter.eqF Col.category w]
      else
        [Filter.eqF Col.category w, Filter.eqF Col.region v]
  | some v, none => [Filter.eqF Col.region v]
  | none, some w => [Filter.eqF Col.category w]
  | none, none => []

/-- Modelled from the spec: recognize the two-sided pattern
"between month and month" (§4.2). -/
def findBetween : List String → Option (Nat × Nat)
  | [] => none
  | a :: rest =>
    if a = "between" then
      match rest with
      | t1 :: t2 :: t3 :: _ =>
        match monthOf t1, (if t2 = "and" then monthOf t3 else none) with
        | some x, some y => some (x, y)
        | _, _ => findBetween rest
      | _ => findBetween rest
    else findBetween rest

/-- Modelled from the spec: the month filter, if any — a BETWEEN_MONTHS
filter for the two-sided pattern, otherwise an IN_MONTH filter on the
first standalone month name. -/
def monthFilterOf (ts : List String) : Option Filter :=
  match findBetween ts with
  | some p => some (Filter.betweenMonths p.1 p.2)
  | none =>
    match ts.findSome? monthOf with
    | some m => some (Filter.inMonth m)
    | none => none

/-- Decimal value of an all-digit token. -/
def natOfToken (t : String) : Option Nat :=
  if t.data ≠ [] ∧ t.data.all (fun c => c.isDigit) then
    some (t.data.foldl (fun n c => n * 10 + (c.toNat - 48)) 0)
  else none

/-- Modelled from the spec: a numeral token is a recognized top-N
candidate when it is a small positive integer (the sane ceiling of the
plan invariants is 1000). -/
def smallNat (t : String) : Option Nat :=
  match natOfToken t with
  | some n => if 1 ≤ n ∧ n ≤ 1000 then some n else none
  | none => none

/-- Modelled from the spec: recognize a small integer token immediately
preceded by "top" (§4.2). -/
def topNOf : List String → Option Nat
  | a :: b :: rest =>
    if a = "top" then
      match smallNat b with
      | some n => some n
      | none => topNOf (b :: rest)
    else topNOf (b :: rest)
  | _ => none

/-- Modelled from the spec: recognize a dimension noun immediately
preceded by "by" (§4.2). -/
def groupByOf : List String → Option Col
  | [] => none
  | a :: rest =>
    if a = "by" then
      match rest with
      | t :: _ =>
        match dimNounOf t with
        | some c => some c
        | none => groupByOf rest
      | [] => none
    else groupByOf rest

/-- Modelled from the spec: a dimension noun appearing anywhere, used as
the implicit group-by on the top-N path (§4.4). -/
def dimAnywhere (ts : List String) : Option Col :=
  ts.findSome? dimNounOf

/-! Intent Classifier (§4.3). -/

/-- Whether two given tokens occur adjacently, in order. -/
def hasPair (ts : List String) (x y : String) : Bool :=
  (ts.zip ts.tail).any (fun p => p.1 = x ∧ p.2 = y)

/-- Modelled from the spec: count-family keywords
("number of", "count", "how many"). -/
def countSignal (ts : List String) : Bool :=
  ts.contains "count" || hasPair ts "number" "of" || hasPair ts "how" "many"

/-- Modelled from the spec: sum-family keywords ("total", "sum"). -/
def sumSignal (ts : List String) : Bool :=
  ts.contains "total" || ts.contains "sum"

/-- Modelled from the spec: average-family keywords
("average", "avg", "mean"). -/
def avgSignal (ts : List String) : Bool :=
  ts.contains "average" || ts.contains "avg" || ts.contains "mean"

/-- Modelled from the spec: the recognized metric noun, defaulting to
the amount column (§4.3). -/
def metricOf (ts : List String) : Col :=
  (ts.findSome? metricNounOf).getD Col.amount

/-- Modelled from the spec: keyword-precedence intent classification,
first match wins (§4.3): top-N numeral, then count, sum, average
keywords, otherwise LIST. -/
def aggregateOf (ts : List String) : Agg :=
  if (topNOf ts).isSome then Agg.SUM
  else if countSignal ts then Agg.COUNT
  else if sumSignal ts then Agg.SUM
  else if avgSignal ts then Agg.AVG
  else Agg.LIST

/-! Query Planner (§4.4). -/

/-- Modelled from the spec: the ordered filter list of the plan —
categorical filters followed by the month filter (§4.4, filters copied
verbatim). -/
def filtersOf (ts : List String) : List Filter :=
  catFilters ts ++ (monthFilterOf ts).toList

/-- Modelled from the spec: the group-by candidate — the recognized
"by dimension" noun, or, on the top-N path, a dimension noun appearing
anywhere (§4.4). -/
def rawGroupBy (ts : List String) : Option Col :=
  match groupByOf ts with
  | some c => some c
  | none => if (topNOf ts).isSome then dimAnywhere ts else none

/-- Modelled from the spec: §4.4 validation — a group-by equal to a
column already pinned by an EQUALS filter is dropped. -/
def validGroupBy (ts : List String) : Option Col :=
  match rawGroupBy ts with
  | some c => if (filtersOf ts).any (fun f => f.isEqOn c) then none else some c
  | none => none

/-- Modelled from the spec: merge classifier output and recognized
entities into one Query Plan, with the §4.4 validation steps (default
metric, dropped group-by on a pinned column, limit and ordering only on
the top-N path). -/
def planOf (ts : List String) : Plan :=
  { aggregate := aggregateOf ts
    metricColumn :=
      match aggregateOf ts with
      | Agg.SUM => some (metricOf ts)
      | Agg.AVG => some (metricOf ts)
      | _ => none
    groupByColumn := validGroupBy ts
    filters := filtersOf ts
    limit := topNOf ts
    orderBy := if (topNOf ts).isSome then some "revenue" else none
    orderDirection := if (topNOf ts).isSome then some "DESC" else none }

/-! Query Generator (§4.5). -/

/-- Doubles embedded quote characters before interpolation (§4.5). -/
def escapeQuotes (v : String) : String :=
  String.mk (v.data.flatMap (fun c => if c = '\x27' then ['\x27', '\x27'] else [c]))

/-- Two-digit rendering of a month number. -/
def twoDigit (m : Nat) : String :=
  if m < 10 then "0" ++ toString m else toString m

/-- Modelled from the spec: the readable alias of the aggregate
expression (`revenue` on the top-N path, otherwise
`total_*` / `average_*` / `order_count`, §4.5). -/
def aliasOf (p : Plan) : String :=
  if p.limit.isSome then "revenue"
  else
    match p.aggregate, p.metricColumn with
    | Agg.COUNT, _ => "order_count"
    | Agg.SUM, some Col.quantity => "total_quantity"
    | Agg.SUM, _ => "total_amount"
    | Agg.AVG, some Col.quantity => "average_quantity"
    | Agg.AVG, _ => "average_amount"
    | Agg.LIST, _ => "rows"

/-- Modelled from the spec: the aggregate expression (§4.5). -/
def aggExpr (p : Plan) : String :=
  match p.aggregate, p.metricColumn with
  | Agg.COUNT, _ => "COUNT(*)"
  | Agg.SUM, some c => "SUM(" ++ c.sqlName ++ ")"
  | Agg.SUM, none => "SUM(amount)"
  | Agg.AVG, some c => "AVG(" ++ c.sqlName ++ ")"
  | Agg.AVG, none => "AVG(amount)"
  | Agg.LIST, _ => "*"

/-- Modelled from the spec: render one filter into a WHERE predicate
(§4.5): equality with quote-doubled canonical value, month-number
equality for IN_MONTH, an inclusive range for BETWEEN_MONTHS. -/
def renderFilter : Filter → String
  | Filter.eqF c v => c.sqlName ++ " = \x27" ++ escapeQuotes v ++ "\x27"
  | Filter.inMonth m => "SUBSTR(order_month, 6, 2) = \x27" ++ twoDigit m ++ "\x27"
  | Filter.betweenMonths a b =>
    "CAST(SUBSTR(order_month, 6, 2) AS INTEGER) BETWEEN " ++ toString a ++ " AND " ++ toString b

/-- Joins rendered pieces with a separator. -/
def joinWith (sep : String) : List String → String
  | [] => ""
  | [x] => x
  | x :: y :: rest => x ++ sep ++ joinWith sep (y :: rest)

/-- Modelled from the spec: the SELECT clause — `*` for LIST, otherwise
the group-by column (if any) followed by the aliased aggregate. -/
def selectClause (p : Plan) : String :=
  match p.aggregate with
  | Agg.LIST => "SELECT * FROM orders"
  | _ =>
    "SELECT " ++
      (match p.groupByColumn with
       | some c => c.sqlName ++ ", "
       | none => "") ++
      aggExpr p ++ " AS " ++ aliasOf p ++ " FROM orders"

/-- Modelled from the spec: the WHERE clause, filters joined with AND in
filter-list order; empty when there are no filters. -/
def whereClause (p : Plan) : String :=
  match p.filters with
  | [] => ""
  | fs => " WHERE " ++ joinWith " AND " (fs.map renderFilter)

/-- Modelled from the spec: the GROUP BY clause, present iff the plan
has a group-by column. -/
def groupClause (p : Plan) : String :=
  match p.groupByColumn with
  | some c => " GROUP BY " ++ c.sqlName
  | none => ""

/-- Modelled from the spec: ORDER BY / LIMIT, present iff `limit` is
set, ordering by the aggregate alias, descending. -/
def orderLimitClause (p : Plan) : String :=
  match p.limit with
  | some n => " ORDER BY " ++ aliasOf p ++ " DESC LIMIT " ++ toString n
  | none => ""

/-- Modelled from the spec: render the full query string. -/
def genSql (p : Plan) : String :=
  selectClause p ++ whereClause p ++ groupClause p ++ orderLimitClause p

/-- Whether the plan is the fallback LIST-all plan. -/
def isFallback (p : Plan) : Bool :=
  p.aggregate = Agg.LIST ∧ p.filters = [] ∧ p.groupByColumn = none ∧ p.limit = none

/-- Human-readable month name for the explanation string. -/
def monthName (m : Nat) : String :=
  match (monthNames.getD (m - 1) "month").data with
  | [] => ""
  | c :: rest => String.mk (c.toUpper :: rest)

/-- Modelled from the spec: a short description of one filter. -/
def describeFilter : Filter → String
  | Filter.eqF c v => c.sqlName ++ " = " ++ v
  | Filter.inMonth m => "month = " ++ monthName m
  | Filter.betweenMonths a b => "month between " ++ monthName a ++ " and " ++ monthName b

/-- Modelled from the spec: the leading phrase of the explanation. -/
def aggPhrase (p : Plan) : String :=
  match p.limit with
  | some n => "Showing the top " ++ toString n ++ " results ranked by revenue"
  | none =>
    match p.aggregate, p.metricColumn with
    | Agg.SUM, some c => "Summing " ++ c.sqlName
    | Agg.SUM, none => "Summing amount"
    | Agg.AVG, some c => "Averaging " ++ c.sqlName
    | Agg.AVG, none => "Averaging amount"
    | Agg.COUNT, _ => "Counting orders"
    | Agg.LIST, _ => "Listing orders"

/-- Modelled from the spec: the explanation string — the fallback text
notes that no specific condition was recognized; otherwise a short
declarative sentence assembled from the plan fields (§4.5). -/
def genExplanation (p : Plan) : String :=
  if isFallback p then
    "No specific condition was recognized; showing all rows."
  else
    aggPhrase p ++
      (match p.groupByColumn with
       | some c => " grouped by " ++ c.sqlName
       | none => "") ++
      (match p.filters with
       | [] => ""
       | fs => " filtered by " ++ joinWith " and " (fs.map describeFilter)) ++
      "."

/-- Modelled from the spec: the translate operation
`translate` returning sql and explanation (§6), the composition of the
whole pipeline. -/
def translateToSql (s : String) : QueryState :=
  let p := planOf (normalize s)
  { sql := genSql p, explanation := genExplanation p }

end NlSql

namespace NlSql

/-! Helper lemmas about string rendering. -/

/-- Substring containment, stated on the character data. -/
def strContains (big small : String) : Prop :=
  small.data <:+: big.data

theorem append_ne_empty_left (a b : String) (h : a.data ≠ []) : a ++ b ≠ "" := by
  intro hc
  apply h
  have h2 : (a ++ b).data = ("" : String).data := congrArg String.data hc
  rw [String.data_append] at h2
  exact (List.append_eq_nil.mp h2).1

theorem append_ne_empty_right (a b : String) (h : b.data ≠ []) : a ++ b ≠ "" := by
  intro hc
  apply h
  have h2 : (a ++ b).data = ("" : String).data := congrArg String.data hc
  rw [String.data_append] at h2
  exact (List.append_eq_nil.mp h2).2

theorem selectClause_data_ne (p : Plan) : (selectClause p).data ≠ [] := by
  unfold selectClause
  cases p.aggregate <;> simp

theorem genSql_ne_empty (p : Plan) : genSql p ≠ "" := by
  unfold genSql
  apply append_ne_empty_left
  intro h
  rw [String.data_append] at h
  have h2 := (List.append_eq_nil.mp h).1
  rw [String.data_append] at h2
  exact selectClause_data_ne p (List.append_eq_nil.mp h2).1

theorem genExplanation_ne_empty (p : Plan) : genExplanation p ≠ "" := by
  unfold genExplanation
  split
  · intro h
    exact absurd (congrArg String.data h) (by simp)
  · apply append_ne_empty_right
    simp

end NlSql

namespace NlSql

theorem joinWith_contains (sep : String) (l : List String) (x : String) (hx : x ∈ l) :
    x.data <:+: (joinWith sep l).data := by
  induction l with
  | nil => cases hx
  | cons y rest ih =>
    cases rest with
    | nil =>
      rcases List.mem_singleton.mp hx with rfl
      exact List.infix_rfl
    | cons z rest2 =>
      rcases List.mem_cons.mp hx with rfl | hmem
      · refine ⟨[], (sep ++ joinWith sep (z :: rest2)).data, ?_⟩
        simp [joinWith]
      · have h1 : x.data <:+: (joinWith sep (z :: rest2)).data := ih hmem
        refine h1.trans ?_
        refine ⟨(y ++ sep).data, [], ?_⟩
        simp [joinWith]

theorem whereClause_contains (p : Plan) (f : Filter) (hf : f ∈ p.filters) :
    (renderFilter f).data <:+: (whereClause p).data := by
  unfold whereClause
  match hfs : p.filters with
  | [] => rw [hfs] at hf; cases hf
  | g :: rest =>
    rw [hfs] at hf
    have h1 : (renderFilter f).data <:+: (joinWith " AND " ((g :: rest).map renderFilter)).data :=
      joinWith_contains _ _ _ (List.mem_map_of_mem renderFilter hf)
    refine h1.trans ?_
    exact ⟨(" WHERE " : String).data, [], by simp⟩

theorem sql_contains_of_whereClause (p : Plan) (piece : String)
    (h : piece.data <:+: (whereClause p).data) : strContains (genSql p) piece := by
  refine h.trans ?_
  unfold genSql
  exact ⟨(selectClause p).data, (groupClause p).data ++ (orderLimitClause p).data, by simp⟩

theorem sql_contains_orderLimit (p : Plan) :
    strContains (genSql p) (orderLimitClause p) := by
  unfold strContains genSql
  refine ⟨(selectClause p).data ++ (whereClause p).data ++ (groupClause p).data, [], ?_⟩
  simp

/-! Claim theorems for the translator. -/

/-- C1: for every input string, including the empty string,
`translateToSql` is total and returns a record in which both the `sql`
string and the `explanation` string are non-empty. -/
theorem translate_total_nonempty (s : String) :
    (translateToSql s).sql ≠ "" ∧ (translateToSql s).explanation ≠ "" :=
  ⟨genSql_ne_empty _, genExplanation_ne_empty _⟩

/-- C6: `translateToSql` is deterministic and stateless — it is a pure
function of its input; translating equal inputs yields byte-identical
results, however many times it is run. -/
theorem translate_deterministic (s t : String) :
    translateToSql s = translateToSql s ∧
      (s = t → translateToSql s = translateToSql t) :=
  ⟨rfl, fun h => h ▸ rfl⟩

/-- Witness for C6 at a concrete input. -/
theorem translate_deterministic_witness :
    translateToSql "total sales by region" = translateToSql "total sales by region" :=
  (translate_deterministic "total sales by region" "total sales by region").2 rfl

/-- C3: the aggregate of the produced plan is determined by a fixed
precedence order with first match winning: top-N numeral forces SUM with
a limit and descending order; otherwise count keywords give COUNT, then
sum keywords SUM, then average keywords AVG, and otherwise LIST. -/
theorem aggregate_precedence (s : String) :
    (planOf (normalize s)).aggregate =
      (if (topNOf (normalize s)).isSome then Agg.SUM
       else if countSignal (normalize s) then Agg.COUNT
       else if sumSignal (normalize s) then Agg.SUM
       else if avgSignal (normalize s) then Agg.AVG
       else Agg.LIST) ∧
    ((topNOf (normalize s)).isSome →
      (planOf (normalize s)).limit = topNOf (normalize s) ∧
        (planOf (normalize s)).orderDirection = some "DESC") := by
  refine ⟨rfl, fun h => ⟨rfl, ?_⟩⟩
  simp [planOf, h]

/-- Witness for C3 at a concrete top-N input. -/
theorem aggregate_precedence_witness :
    (planOf (normalize "top 5 customers by revenue")).limit =
        topNOf (normalize "top 5 customers by revenue") ∧
      (planOf (normalize "top 5 customers by revenue")).orderDirection = some "DESC" :=
  (aggregate_precedence "top 5 customers by revenue").2 (by decide)

end NlSql

namespace NlSql

/-- Modelled from the spec: the fallback translation result (§4.5):
the LIST-all query and the no-condition explanation. -/
def fallbackResult : QueryState :=
  { sql := "SELECT * FROM orders"
    explanation := "No specific condition was recognized; showing all rows." }

/-- C2: an input with an empty normalized token sequence, or one in
which no aggregate, filter, group-by or limit signal is recognized,
produces the fallback plan — `SELECT * FROM orders` with no WHERE,
GROUP BY or LIMIT clause — and the explanation that no specific
condition was recognized; in particular the empty string does. -/
theorem fallback_plan :
    (∀ s, normalize s = [] →
      translateToSql s = fallbackResult) ∧
    (∀ s,
      catFilters (normalize s) = [] →
      monthFilterOf (normalize s) = none →
      topNOf (normalize s) = none →
      groupByOf (normalize s) = none →
      countSignal (normalize s) = false →
      sumSignal (normalize s) = false →
      avgSignal (normalize s) = false →
      translateToSql s = fallbackResult) ∧
    translateToSql "" = fallbackResult := by
  refine ⟨?_, ?_, by decide⟩
  · intro s h
    have hdef : translateToSql s =
        { sql := genSql (planOf (normalize s)),
          explanation := genExplanation (planOf (normalize s)) } := rfl
    rw [hdef, h]
    decide
  · intro s h1 h2 h3 h4 h5 h6 h7
    have hdef : translateToSql s =
        { sql := genSql (planOf (normalize s)),
          explanation := genExplanation (planOf (normalize s)) } := rfl
    have hp : planOf (normalize s) =
        { aggregate := Agg.LIST, metricColumn := none, groupByColumn := none,
          filters := [], limit := none, orderBy := none, orderDirection := none } := by
      unfold planOf aggregateOf filtersOf validGroupBy rawGroupBy
      rw [h1, h2, h3, h4, h5, h6, h7]
      simp
    rw [hdef, hp]
    decide

/-- Witness for C2 at a concrete signal-free input. -/
theorem fallback_plan_witness :
    translateToSql "please show everything now" = fallbackResult :=
  fallback_plan.2.1 "please show everything now" (by decide) (by decide) (by decide)
    (by decide) (by decide) (by decide) (by decide)

end NlSql

namespace NlSql

theorem monthFilterOf_no_eq (ts : List String) (c : Col) (v : String) :
    Filter.eqF c v ∉ (monthFilterOf ts).toList := by
  unfold monthFilterOf
  intro h
  split at h
  · simp at h
  · split at h <;> simp at h

theorem eqF_region_mem_iff (ts : List String) (v : String) :
    Filter.eqF Col.region v ∈ catFilters ts ↔ firstCatMatch ts regionValues = some v := by
  rcases hR : firstCatMatch ts regionValues with _ | u <;>
    rcases hC : firstCatMatch ts categoryValues with _ | w <;>
    simp only [catFilters, hR, hC]
  · simp
  · simp
  · simp
    exact eq_comm
  · split <;> simp <;> exact eq_comm

theorem eqF_category_mem_iff (ts : List String) (v : String) :
    Filter.eqF Col.category v ∈ catFilters ts ↔ firstCatMatch ts categoryValues = some v := by
  rcases hR : firstCatMatch ts regionValues with _ | u <;>
    rcases hC : firstCatMatch ts categoryValues with _ | w <;>
    simp only [catFilters, hR, hC]
  · simp
  · simp
    exact eq_comm
  · simp
  · split <;> simp <;> exact eq_comm

theorem firstCatMatch_mem (ts values : List String) (v : String)
    (h : firstCatMatch ts values = some v) : v ∈ values := by
  unfold firstCatMatch at h
  obtain ⟨t, _, ht⟩ := List.exists_of_findSome?_eq_some h
  unfold canonOf at ht
  exact List.mem_of_find?_eq_some ht

end NlSql

namespace NlSql

/-- C4: a filter on a categorical column is produced exactly for the
first (leftmost, greedily matched) token naming a known value of that
column, in any casing; the filter value carries the canonical casing
from the Schema Registry, and the rendered equality predicate appears
in the generated statement. -/
theorem catFilter_canonical (s : String) :
    (∀ v, Filter.eqF Col.region v ∈ (planOf (normalize s)).filters ↔
        firstCatMatch (normalize s) regionValues = some v) ∧
    (∀ v, Filter.eqF Col.category v ∈ (planOf (normalize s)).filters ↔
        firstCatMatch (normalize s) categoryValues = some v) ∧
    (∀ v, firstCatMatch (normalize s) regionValues = some v → v ∈ regionValues) ∧
    (∀ v, firstCatMatch (normalize s) categoryValues = some v → v ∈ categoryValues) ∧
    (∀ f, f ∈ (planOf (normalize s)).filters →
      strContains (translateToSql s).sql (renderFilter f)) := by
  have hfs : (planOf (normalize s)).filters =
      catFilters (normalize s) ++ (monthFilterOf (normalize s)).toList := rfl
  refine ⟨?_, ?_, fun v => firstCatMatch_mem _ _ v, fun v => firstCatMatch_mem _ _ v, ?_⟩
  · intro v
    rw [hfs]
    rw [List.mem_append]
    constructor
    · intro h
      rcases h with h | h
      · exact (eqF_region_mem_iff _ v).mp h
      · exact absurd h (monthFilterOf_no_eq _ _ _)
    · intro h
      exact Or.inl ((eqF_region_mem_iff _ v).mpr h)
  · intro v
    rw [hfs]
    rw [List.mem_append]
    constructor
    · intro h
      rcases h with h | h
      · exact (eqF_category_mem_iff _ v).mp h
      · exact absurd h (monthFilterOf_no_eq _ _ _)
    · intro h
      exact Or.inl ((eqF_category_mem_iff _ v).mpr h)
  · intro f hf
    have h1 := whereClause_contains (planOf (normalize s)) f hf
    have h2 := sql_contains_of_whereClause (planOf (normalize s)) _ h1
    exact h2

/-- Witness for C4: the category filter of spec scenario 4, with its
canonical casing, appears in the generated statement. -/
theorem catFilter_canonical_witness :
    strContains (translateToSql "list grocery orders in the south region").sql
      (renderFilter (Filter.eqF Col.category "Grocery")) :=
  (catFilter_canonical "list grocery orders in the south region").2.2.2.2
    (Filter.eqF Col.category "Grocery") (by decide)

/-- C5: whenever a top-N numeral is recognized, the plan's limit is
that literal N, ordering is by the aggregate alias and always
descending, and the statement contains `ORDER BY <alias> DESC LIMIT N`;
limit, orderBy and orderDirection are set only on this top-N path. -/
theorem topN_clause (s : String) :
    (∀ n, topNOf (normalize s) = some n →
      (planOf (normalize s)).limit = some n ∧
      (planOf (normalize s)).orderBy = some "revenue" ∧
      (planOf (normalize s)).orderDirection = some "DESC" ∧
      strContains (translateToSql s).sql
        (" ORDER BY " ++ aliasOf (planOf (normalize s)) ++ " DESC LIMIT " ++ toString n)) ∧
    (topNOf (normalize s) = none →
      (planOf (normalize s)).limit = none ∧
      (planOf (normalize s)).orderBy = none ∧
      (planOf (normalize s)).orderDirection = none) := by
  constructor
  · intro n h
    refine ⟨h, by simp [planOf, h], by simp [planOf, h], ?_⟩
    have hcl : orderLimitClause (planOf (normalize s)) =
        " ORDER BY " ++ aliasOf (planOf (normalize s)) ++ " DESC LIMIT " ++ toString n := by
      unfold orderLimitClause
      have hl : (planOf (normalize s)).limit = some n := h
      rw [hl]
    have h2 := sql_contains_orderLimit (planOf (normalize s))
    rw [hcl] at h2
    exact h2
  · intro h
    exact ⟨h, by simp [planOf, h], by simp [planOf, h]⟩

/-- Witness for C5 at spec scenario 2. -/
theorem topN_clause_witness :
    (planOf (normalize "top 5 customers by revenue")).limit = some 5 ∧
      (planOf (normalize "top 5 customers by revenue")).orderBy = some "revenue" ∧
      (planOf (normalize "top 5 customers by revenue")).orderDirection = some "DESC" ∧
      strContains (translateToSql "top 5 customers by revenue").sql
        (" ORDER BY " ++ aliasOf (planOf (normalize "top 5 customers by revenue")) ++
          " DESC LIMIT " ++ toString 5) :=
  (topN_clause "top 5 customers by revenue").1 5 (by decide)

end NlSql

namespace NlSql

theorem smallNat_bounds (t : String) (n : Nat) (h : smallNat t = some n) :
    1 ≤ n ∧ n ≤ 1000 := by
  unfold smallNat at h
  cases hv : natOfToken t with
  | none => rw [hv] at h; cases h
  | some m =>
    rw [hv] at h
    have h2 : (if 1 ≤ m ∧ m ≤ 1000 then some m else none) = some n := h
    by_cases hc : 1 ≤ m ∧ m ≤ 1000
    · rw [if_pos hc] at h2
      cases h2
      exact hc
    · rw [if_neg hc] at h2
      cases h2

theorem topNOf_bounds (ts : List String) (n : Nat) (h : topNOf ts = some n) :
    1 ≤ n ∧ n ≤ 1000 := by
  induction ts with
  | nil => simp [topNOf] at h
  | cons a rest ih =>
    cases rest with
    | nil => simp [topNOf] at h
    | cons b rest2 =>
      rw [topNOf] at h
      split at h
      · cases hsb : smallNat b with
        | some m =>
          rw [hsb] at h
          cases h
          exact smallNat_bounds b n hsb
        | none =>
          rw [hsb] at h
          exact ih h
      · exact ih h

theorem monthFilterOf_shape (ts : List String) (f : Filter)
    (h : monthFilterOf ts = some f) :
    f.fop = FOp.IN_MONTH ∨ f.fop = FOp.BETWEEN_MONTHS := by
  unfold monthFilterOf at h
  split at h
  · cases h
    right
    rfl
  · split at h
    · cases h
      left
      rfl
    · cases h

theorem eqF_not_month_rel (c : Col) (v : String) (g : Filter)
    (h : g.fop = FOp.IN_MONTH ∨ g.fop = FOp.BETWEEN_MONTHS) :
    ¬((Filter.eqF c v).column = g.column ∧ (Filter.eqF c v).fop = g.fop) := by
  intro hc
  have h2 : (Filter.eqF c v).fop = FOp.EQUALS := rfl
  rcases h with h | h <;> rw [h2, h] at hc <;> exact absurd hc.2 (by decide)

theorem eqF_cols_rel (c1 c2 : Col) (u w : String) (h : c1 ≠ c2) :
    ¬((Filter.eqF c1 u).column = (Filter.eqF c2 w).column ∧
      (Filter.eqF c1 u).fop = (Filter.eqF c2 w).fop) := by
  intro hc
  exact h hc.1

theorem catFilters_shape (ts : List String) (f : Filter) (hf : f ∈ catFilters ts) :
    ∃ c v, f = Filter.eqF c v := by
  rcases hR : firstCatMatch ts regionValues with _ | u <;>
    rcases hC : firstCatMatch ts categoryValues with _ | w <;>
    simp only [catFilters, hR, hC] at hf
  · cases hf
  · rcases List.mem_singleton.mp hf with rfl
    exact ⟨_, _, rfl⟩
  · rcases List.mem_singleton.mp hf with rfl
    exact ⟨_, _, rfl⟩
  · split at hf
    · rcases List.mem_cons.mp hf with rfl | hf2
      · exact ⟨_, _, rfl⟩
      · rcases List.mem_singleton.mp hf2 with rfl
        exact ⟨_, _, rfl⟩
    · rcases List.mem_cons.mp hf with rfl | hf2
      · exact ⟨_, _, rfl⟩
      · rcases List.mem_singleton.mp hf2 with rfl
        exact ⟨_, _, rfl⟩

theorem monthOpt_fop (ts : List String) (f : Filter)
    (hf : f ∈ (monthFilterOf ts).toList) :
    f.fop = FOp.IN_MONTH ∨ f.fop = FOp.BETWEEN_MONTHS := by
  cases hm : monthFilterOf ts with
  | none => rw [hm] at hf; cases hf
  | some g =>
    rw [hm] at hf
    rcases List.mem_singleton.mp hf with rfl
    exact monthFilterOf_shape ts f hm

theorem filters_pairwise (ts : List String) :
    List.Pairwise (fun f g => ¬(f.column = g.column ∧ f.fop = g.fop)) (filtersOf ts) := by
  unfold filtersOf
  rw [List.pairwise_append]
  refine ⟨?_, ?_, ?_⟩
  · rcases hR : firstCatMatch ts regionValues with _ | u <;>
      rcases hC : firstCatMatch ts categoryValues with _ | w <;>
      simp only [catFilters, hR, hC]
    · exact List.Pairwise.nil
    · exact List.pairwise_singleton _ _
    · exact List.pairwise_singleton _ _
    · split
      · refine List.Pairwise.cons ?_ (List.pairwise_singleton _ _)
        intro g hg
        rcases List.mem_singleton.mp hg with rfl
        exact eqF_cols_rel Col.region Col.category u w (by decide)
      · refine List.Pairwise.cons ?_ (List.pairwise_singleton _ _)
        intro g hg
        rcases List.mem_singleton.mp hg with rfl
        exact eqF_cols_rel Col.category Col.region w u (by decide)
  · cases monthFilterOf ts with
    | none => exact List.Pairwise.nil
    | some g => exact List.pairwise_singleton _ _
  · intro a ha b hb
    obtain ⟨c, v, rfl⟩ := catFilters_shape ts a ha
    exact eqF_not_month_rel c v b (monthOpt_fop ts b hb)

/-- C7: every produced Query Plan satisfies the plan invariants — the
metric column is set (defaulting to amount) whenever the aggregate is
SUM or AVG; a group-by column never coincides with a column pinned by
an EQUALS filter; no two filters share both column and operator; and a
limit, when present, is a positive integer within the 1000 ceiling. -/
theorem plan_invariants (s : String) :
    ((planOf (normalize s)).aggregate = Agg.SUM ∨
        (planOf (normalize s)).aggregate = Agg.AVG →
      (planOf (normalize s)).metricColumn = some (metricOf (normalize s))) ∧
    (∀ c, (planOf (normalize s)).groupByColumn = some c →
      ∀ v, Filter.eqF c v ∉ (planOf (normalize s)).filters) ∧
    List.Pairwise (fun f g => ¬(f.column = g.column ∧ f.fop = g.fop))
      (planOf (normalize s)).filters ∧
    (∀ n, (planOf (normalize s)).limit = some n → 0 < n ∧ n ≤ 1000) := by
  refine ⟨?_, ?_, filters_pairwise (normalize s), ?_⟩
  · intro h
    rcases h with h | h <;>
      · have h2 : aggregateOf (normalize s) = _ := h
        simp [planOf, h2]
  · intro c hc v hv
    have hc2 : validGroupBy (normalize s) = some c := hc
    have hv2 : Filter.eqF c v ∈ filtersOf (normalize s) := hv
    unfold validGroupBy at hc2
    cases hg : rawGroupBy (normalize s) with
    | none => rw [hg] at hc2; cases hc2
    | some c0 =>
      rw [hg] at hc2
      have hc3 : (if (filtersOf (normalize s)).any (fun f => f.isEqOn c0) then none
          else some c0) = some c := hc2
      cases hany : (filtersOf (normalize s)).any (fun f => f.isEqOn c0) with
      | true =>
        rw [hany] at hc3
        simp at hc3
      | false =>
        rw [hany] at hc3
        simp at hc3
        subst hc3
        have hex : ∃ f ∈ filtersOf (normalize s), (fun f => f.isEqOn c0) f = true :=
          ⟨Filter.eqF c0 v, hv2, by show decide (c0 = c0) = true; simp⟩
        have hcontra := List.any_eq_true.mpr hex
        rw [hany] at hcontra
        cases hcontra
  · intro n hn
    have h2 : topNOf (normalize s) = some n := hn
    have h3 := topNOf_bounds _ n h2
    exact ⟨h3.1, h3.2⟩

/-- Witness for C7: the invariants instantiated on the top-N scenario,
discharging the SUM/AVG and limit hypotheses. -/
theorem plan_invariants_witness :
    (planOf (normalize "top 5 customers by revenue")).metricColumn =
        some (metricOf (normalize "top 5 customers by revenue")) ∧
      (0 < 5 ∧ 5 ≤ 1000) :=
  ⟨(plan_invariants "top 5 customers by revenue").1 (Or.inl (by decide)),
    (plan_invariants "top 5 customers by revenue").2.2.2 5 (by decide)⟩

end NlSql

namespace NlSql

/-! Embedding of the database bootstrap from the page component source
(the CREATE TABLE statement and the insert loop). -/

/-- One column of the bootstrap CREATE TABLE statement. -/
structure ColumnDef where
  name : String
  sqlType : String
  primaryKey : Bool
deriving DecidableEq

/-- The column list of the `CREATE TABLE orders (...)` statement
executed at bootstrap, embedded from the source. -/
def ordersTableColumns : List ColumnDef :=
  [{ name := "id", sqlType := "INTEGER", primaryKey := true },
   { name := "customer", sqlType := "TEXT", primaryKey := false },
   { name := "region", sqlType := "TEXT", primaryKey := false },
   { name := "category", sqlType := "TEXT", primaryKey := false },
   { name := "amount", sqlType := "REAL", primaryKey := false },
   { name := "quantity", sqlType := "INTEGER", primaryKey := false },
   { name := "order_date", sqlType := "TEXT", primaryKey := false },
   { name := "order_month", sqlType := "TEXT", primaryKey := false },
   { name := "order_year", sqlType := "INTEGER", primaryKey := false }]

/-- Modelled from the spec: the semantic column types of the §6 schema
contract. -/
inductive SemType where
  | int
  | text
  | categorical
  | decimal
  | date
deriving DecidableEq

/-- Modelled from the spec: the contracted column list of §6, in order,
with semantic types. -/
def contractColumns : List (String × SemType) :=
  [("id", SemType.int), ("customer", SemType.text), ("region", SemType.categorical),
   ("category", SemType.categorical), ("amount", SemType.decimal),
   ("quantity", SemType.int), ("order_date", SemType.date),
   ("order_month", SemType.text), ("order_year", SemType.int)]

/-- SQLite storage type used by the bootstrap table for each contracted
semantic type (categorical values and dates are stored as TEXT,
decimals as REAL). -/
def SemType.storage : SemType → String
  | SemType.int => "INTEGER"
  | SemType.text => "TEXT"
  | SemType.categorical => "TEXT"
  | SemType.decimal => "REAL"
  | SemType.date => "TEXT"

/-- A dataset row as supplied to the insert loop. -/
structure OrderRow where
  id : Int
  customer : String
  region : String
  category : String
  amount : Rat
  quantity : Int
  order_date : String

/-- A stored row of the orders table, with the derived columns. -/
structure StoredRow where
  id : Int
  customer : String
  region : String
  category : String
  amount : Rat
  quantity : Int
  order_date : String
  order_month : String
  order_year : Int

/-- Decimal value of a digit list (the numeric value of a digit
string). -/
def digitsValue (l : List Char) : Nat :=
  l.foldl (fun n c => n * 10 + (c.toNat - 48)) 0

/-- The character-level prefix of a string, embedding the JS
`slice(0, n)` used by the insert loop (the dates are ASCII, so code
units and characters coincide). -/
def strTake (s : String) (n : Nat) : String :=
  String.mk (s.data.take n)

/-- The numeric year derived from a date string, embedding
`Number(order.order_date.slice(0, 4))` on the digit-year prefix of a
well-formed date. -/
def yearOfDate (s : String) : Int :=
  ((digitsValue (strTake s 4).data : Nat) : Int)

/-- The insert loop of the bootstrap, embedded from the source: each
order row is stored together with `order_month = order_date.slice(0, 7)`
and `order_year = Number(order_date.slice(0, 4))`. -/
def insertedRow (o : OrderRow) : StoredRow :=
  { id := o.id
    customer := o.customer
    region := o.region
    category := o.category
    amount := o.amount
    quantity := o.quantity
    order_date := o.order_date
    order_month := strTake o.order_date 7
    order_year := yearOfDate o.order_date }

theorem take_of_date (y m d : String) (hy : y.length = 4) (hm : m.length = 2) :
    strTake (y ++ "-" ++ m ++ "-" ++ d) 7 = y ++ "-" ++ m ∧
    strTake (y ++ "-" ++ m ++ "-" ++ d) 4 = y := by
  have hy2 : y.data.length = 4 := hy
  have hm2 : m.data.length = 2 := hm
  constructor
  · apply String.ext
    simp only [strTake, String.data_append]
    rw [show y.data ++ ['-'] ++ m.data ++ ['-'] ++ d.data =
        (y.data ++ ['-'] ++ m.data) ++ (['-'] ++ d.data) by simp]
    exact List.take_left' (by simp [hy2, hm2])
  · apply String.ext
    simp only [strTake, String.data_append]
    rw [show y.data ++ ['-'] ++ m.data ++ ['-'] ++ d.data =
        y.data ++ (['-'] ++ m.data ++ ['-'] ++ d.data) by simp]
    exact List.take_left' hy2

/-- C8: the bootstrap table has exactly the contracted column names and
storage types, and for every inserted row with a well-formed
`YYYY-MM-DD` date the derived `order_month` is the `YYYY-MM` prefix of
the date and `order_year` is the numeric value of its first four
characters. -/
theorem bootstrap_schema :
    ordersTableColumns.map (fun c => c.name) = contractColumns.map (fun c => c.1) ∧
    ordersTableColumns.map (fun c => c.sqlType) =
      contractColumns.map (fun c => SemType.storage c.2) ∧
    (∀ (o : OrderRow) (y m d : String),
      o.order_date = y ++ "-" ++ m ++ "-" ++ d →
      y.length = 4 → m.length = 2 →
      (insertedRow o).order_month = y ++ "-" ++ m ∧
      (insertedRow o).order_year = ((digitsValue y.data : Nat) : Int)) := by
  refine ⟨by decide, by decide, ?_⟩
  intro o y m d ho hy hm
  have h1 : (insertedRow o).order_month = strTake o.order_date 7 := rfl
  have h2 : (insertedRow o).order_year =
      ((digitsValue (strTake o.order_date 4).data : Nat) : Int) := rfl
  rw [h1, h2, ho]
  have h3 := take_of_date y m d hy hm
  rw [h3.1, h3.2]
  exact ⟨rfl, rfl⟩

/-- Witness for C8 at a concrete order row. -/
theorem bootstrap_schema_witness :
    (insertedRow (OrderRow.mk 1 "Acme" "South" "Grocery" 10 2 "2023-02-14")).order_month =
        "2023" ++ "-" ++ "02" ∧
      (insertedRow (OrderRow.mk 1 "Acme" "South" "Grocery" 10 2 "2023-02-14")).order_year =
        ((digitsValue "2023".data : Nat) : Int) :=
  bootstrap_schema.2.2 (OrderRow.mk 1 "Acme" "South" "Grocery" 10 2 "2023-02-14")
    "2023" "02" "14" (by decide) (by decide) (by decide)

end NlSql

namespace NlSql

/-! Embedding of `deriveChartState` from the page component source. -/

/-- A JavaScript value appearing in a query-result cell: a number, a
string, or null/undefined. -/
inductive JSVal where
  | num (x : Int)
  | str (s : String)
  | null
deriving DecidableEq

/-- A result row: an association of column names to cell values. -/
abbrev Row := List (String × JSVal)

/-- Property access `row[column]`; a missing key is undefined. -/
def rowGet (r : Row) (c : String) : JSVal :=
  (List.lookup c r).getD JSVal.null

/-- The `typeof value === "number"` test. -/
def isNumV : JSVal → Bool
  | JSVal.num _ => true
  | _ => false

/-- The `typeof value === "string"` test. -/
def isStrV : JSVal → Bool
  | JSVal.str _ => true
  | _ => false

/-- The JS conversion `String(value ?? "")` on a cell value. -/
def jsStringOf : JSVal → String
  | JSVal.num x => toString x
  | JSVal.str s => s
  | JSVal.null => ""

/-- Leading and trailing whitespace removed. -/
def trimChars (l : List Char) : List Char :=
  ((l.dropWhile Char.isWhitespace).reverse.dropWhile Char.isWhitespace).reverse

/-- The JS conversion `Number(string)` restricted to optionally signed
integer literals; `none` models NaN. -/
def jsStrToNumber (s : String) : Option Int :=
  match trimChars s.data with
  | [] => some 0
  | '-' :: rest =>
    if rest ≠ [] ∧ rest.all Char.isDigit then some (-(digitsValue rest : Int)) else none
  | l => if l.all Char.isDigit then some ((digitsValue l : Nat) : Int) else none

/-- The JS conversion `Number(value ?? 0)` on a cell value; `none`
models NaN. -/
def jsNumberOf : JSVal → Option Int
  | JSVal.num x => some x
  | JSVal.null => some 0
  | JSVal.str s => jsStrToNumber s

/-- The dataset label: `dataset.replace(/_/g, " ")`. -/
def underscoresToSpaces (s : String) : String :=
  String.mk (s.data.map (fun c => if c = '_' then ' ' else c))

/-- The bar-chart payload derived for the visualization: labels, the
dataset label, and the data series. -/
structure BarChart where
  labels : List String
  datasetLabel : String
  data : List (Option Int)
deriving DecidableEq

/-- `deriveChartState`, embedded from the page component source: null
for an empty result, label column = first string-typed column of the
first row (falling back to the first column), dataset = first
number-typed column, null when there is none or when every data value
is zero. -/
def deriveChartState (rows : List Row) (columns : List String) : Option BarChart :=
  match rows with
  | [] => none
  | r0 :: rest =>
    if columns.isEmpty then none
    else
      match columns.filter (fun c => isNumV (rowGet r0 c)) with
      | [] => none
      | dataset :: _ =>
        if ((r0 :: rest).map (fun r => jsNumberOf (rowGet r dataset))).any
            (fun v => v ≠ some 0) then
          some { labels := (r0 :: rest).map (fun r => jsStringOf (rowGet r
                   ((columns.find? (fun c => isStrV (rowGet r0 c))).getD
                     (columns.headD ""))))
                 datasetLabel := underscoresToSpaces dataset
                 data := (r0 :: rest).map (fun r => jsNumberOf (rowGet r dataset)) }
        else none

end NlSql

namespace NlSql

/-- C9 counterexample: a non-empty single-row result holding both a
string column and a numeric column, whose only numeric value is zero,
renders no chart — refuting the claim that a chart is rendered whenever
a numeric and a label-like column exist. -/
theorem deriveChartState_cex :
    isStrV (rowGet [("region", JSVal.str "South"), ("amount", JSVal.num 0)] "region") = true ∧
    isNumV (rowGet [("region", JSVal.str "South"), ("amount", JSVal.num 0)] "amount") = true ∧
    deriveChartState [[("region", JSVal.str "South"), ("amount", JSVal.num 0)]]
      ["region", "amount"] = none := by
  decide

/-- C9 amended: for a non-empty result with a first string-typed column
and a first number-typed column, a bar chart is rendered with labels
from the former and data from the latter, provided not every value of
that numeric column converts to zero; when no numeric column exists, no
chart is rendered. -/
theorem deriveChartState_amended (rows : List Row) (columns : List String) :
    (∀ r0 rest lc nc ncs, rows = r0 :: rest →
      columns.find? (fun c => isStrV (rowGet r0 c)) = some lc →
      columns.filter (fun c => isNumV (rowGet r0 c)) = nc :: ncs →
      (∃ r ∈ rows, jsNumberOf (rowGet r nc) ≠ some 0) →
      deriveChartState rows columns =
        some { labels := rows.map (fun r => jsStringOf (rowGet r lc))
               datasetLabel := underscoresToSpaces nc
               data := rows.map (fun r => jsNumberOf (rowGet r nc)) }) ∧
    (∀ r0 rest, rows = r0 :: rest →
      columns.filter (fun c => isNumV (rowGet r0 c)) = [] →
      deriveChartState rows columns = none) := by
  constructor
  · intro r0 rest lc nc ncs hrows hfind hfilter hex
    subst hrows
    have hcols : columns.isEmpty = false := by
      cases columns with
      | nil => simp at hfind
      | cons a as => rfl
    have hany : (((r0 :: rest).map (fun r => jsNumberOf (rowGet r nc))).any
        (fun v => v ≠ some 0)) = true := by
      apply List.any_eq_true.mpr
      obtain ⟨r, hr, hne⟩ := hex
      exact ⟨jsNumberOf (rowGet r nc), List.mem_map_of_mem _ hr, decide_eq_true hne⟩
    unfold deriveChartState
    rw [hcols]
    simp only [Bool.false_eq_true, if_false]
    split
    · rename_i heq
      rw [hfilter] at heq
      cases heq
    · rename_i dataset tail heq
      rw [hfilter] at heq
      injection heq with h1 h2
      subst h1
      rw [if_pos hany, hfind]
      simp [Option.getD]
  · intro r0 rest hrows hfilter
    subst hrows
    unfold deriveChartState
    cases columns with
    | nil => simp
    | cons a as =>
      have hcols : (a :: as).isEmpty = false := rfl
      rw [hcols]
      simp only [Bool.false_eq_true, if_false]
      rw [hfilter]

/-- Witness for the amended C9 at a one-row result with a nonzero
amount. -/
theorem deriveChartState_amended_witness :
    deriveChartState [[("region", JSVal.str "South"), ("amount", JSVal.num 5)]]
      ["region", "amount"] =
      some { labels := ["South"], datasetLabel := "amount", data := [some 5] } := by
  have h := (deriveChartState_amended
      [[("region", JSVal.str "South"), ("amount", JSVal.num 5)]] ["region", "amount"]).1
    [("region", JSVal.str "South"), ("amount", JSVal.num 5)] [] "region" "amount" []
    rfl (by decide) (by decide)
    ⟨[("region", JSVal.str "South"), ("amount", JSVal.num 5)], by decide, by decide⟩
  rw [h]
  decide

/-- C10: the chart is additionally suppressed whenever every value of
the chosen first numeric column converts to zero, even with a numeric
and a label-like column present; and with no string-typed column the
first column serves as the label column rather than the chart being
omitted. -/
theorem deriveChartState_extra (rows : List Row) (columns : List String) :
    (∀ r0 rest nc ncs, rows = r0 :: rest →
      columns.filter (fun c => isNumV (rowGet r0 c)) = nc :: ncs →
      (∀ r ∈ rows, jsNumberOf (rowGet r nc) = some 0) →
      deriveChartState rows columns = none) ∧
    (∀ r0 rest nc ncs, rows = r0 :: rest →
      columns.find? (fun c => isStrV (rowGet r0 c)) = none →
      columns.filter (fun c => isNumV (rowGet r0 c)) = nc :: ncs →
      (∃ r ∈ rows, jsNumberOf (rowGet r nc) ≠ some 0) →
      deriveChartState rows columns =
        some { labels := rows.map (fun r => jsStringOf (rowGet r (columns.headD "")))
               datasetLabel := underscoresToSpaces nc
               data := rows.map (fun r => jsNumberOf (rowGet r nc)) }) := by
  constructor
  · intro r0 rest nc ncs hrows hfilter hall
    subst hrows
    have hcols : columns.isEmpty = false := by
      cases columns with
      | nil => simp at hfilter
      | cons a as => rfl
    have hany : (((r0 :: rest).map (fun r => jsNumberOf (rowGet r nc))).any
        (fun v => v ≠ some 0)) = false := by
      refine List.any_eq_false.mpr ?_
      intro v hv
      obtain ⟨r, hr, rfl⟩ := List.mem_map.mp hv
      have h0 := hall r hr
      simp [h0]
    unfold deriveChartState
    rw [hcols]
    simp only [Bool.false_eq_true, if_false]
    split
    · rename_i heq
      exact absurd (hfilter.symm.trans heq) (by simp)
    · rename_i dataset tail heq
      rw [hfilter] at heq
      injection heq with h1 h2
      subst h1
      rw [hany]
      simp
  · intro r0 rest nc ncs hrows hfind hfilter hex
    subst hrows
    have hcols : columns.isEmpty = false := by
      cases columns with
      | nil => simp at hfilter
      | cons a as => rfl
    have hany : (((r0 :: rest).map (fun r => jsNumberOf (rowGet r nc))).any
        (fun v => v ≠ some 0)) = true := by
      apply List.any_eq_true.mpr
      obtain ⟨r, hr, hne⟩ := hex
      exact ⟨jsNumberOf (rowGet r nc), List.mem_map_of_mem _ hr, decide_eq_true hne⟩
    unfold deriveChartState
    rw [hcols]
    simp only [Bool.false_eq_true, if_false]
    split
    · rename_i heq
      rw [hfilter] at heq
      cases heq
    · rename_i dataset tail heq
      rw [hfilter] at heq
      injection heq with h1 h2
      subst h1
      rw [if_pos hany, hfind]
      simp [Option.getD]

/-- Witness for C10: an all-zero numeric column suppresses the chart,
and a result with no string column still charts using the first column
as labels. -/
theorem deriveChartState_extra_witness :
    deriveChartState [[("amount", JSVal.num 0)]] ["amount"] = none ∧
    deriveChartState [[("amount", JSVal.num 7)]] ["amount"] =
      some { labels := ["7"], datasetLabel := "amount", data := [some 7] } := by
  constructor
  · exact (deriveChartState_extra [[("amount", JSVal.num 0)]] ["amount"]).1
      [("amount", JSVal.num 0)] [] "amount" [] rfl (by decide) (by decide)
  · have h := (deriveChartState_extra [[("amount", JSVal.num 7)]] ["amount"]).2
      [("amount", JSVal.num 7)] [] "amount" [] rfl (by decide) (by decide)
      ⟨[("amount", JSVal.num 7)], by decide, by decide⟩
    rw [h]
    decide

end NlSql

namespace NlSql

/-- Witness for C1 at the empty input. -/
theorem translate_total_nonempty_witness :
    (translateToSql "").sql ≠ "" ∧ (translateToSql "").explanation ≠ "" :=
  translate_total_nonempty ""

end NlSql
